import Mathlib

/-!
Verification of the cycle-analysis core of `Water_Level_Analysis.py`.

The source program reads a timestamp-sorted series of water-level readings,
detects peaks with `scipy.signal.find_peaks(levels, prominence=0)`, walks the
consecutive peak pairs, and emits one record per accepted pumping cycle
(lines 41-107 of the source).  Levels and timestamps are modelled as rational
numbers (timestamps in seconds); Python's `round(x, n)` is modelled as exact
round-half-to-even on rationals; the NaN sentinel used for a missing
90%-recovery time is modelled as `Option`.
-/

namespace WLA

/-- One row of the input frame: `Timestamp` (seconds since epoch) and
`Level above Pump` (meters). -/
structure Reading where
  time : ℚ
  level : ℚ
deriving DecidableEq

def rdDefault : Reading := ⟨0, 0⟩

/-- Round-half-to-even to an integer, the tie-breaking rule of Python's
built-in `round`. -/
def roundHalfEven (x : ℚ) : ℤ :=
  if x - (⌊x⌋ : ℚ) < 1/2 then ⌊x⌋
  else if (1 : ℚ)/2 < x - (⌊x⌋ : ℚ) then ⌊x⌋ + 1
  else if ⌊x⌋ % 2 = 0 then ⌊x⌋ else ⌊x⌋ + 1

/-- Python's `round(x, d)`: round to the nearest multiple of `10 ^ (-d)`,
ties to even. -/
def roundDec (d : Nat) (x : ℚ) : ℚ :=
  ((roundHalfEven (x * (10 : ℚ) ^ d) : ℤ) : ℚ) / (10 : ℚ) ^ d

/-!
Peak Locator.  The source (line 46) calls
`find_peaks(levels, prominence=0)`.  scipy's `_local_maxima_1d` scans the
interior samples, treats equal-valued plateaus as one candidate and reports
the plateau midpoint `(left_edge + right_edge) // 2`; boundary samples are
never peaks.  The subsequent prominence filter keeps a peak when its
prominence is `>= 0`; every local maximum has strictly positive prominence
(both flanking minima lie strictly below the peak level), so with threshold
0 the filter keeps every local maximum and is not modelled further.
`find_peaks` raises on neither an empty series (the scan loop never runs and
an empty index array is returned) nor on NaN values (every comparison with
NaN is false), so the embedding is a total function.
-/

/-- Inner plateau scan of `_local_maxima_1d`: starting at `iAhead`, advance
while the index is below `iMax` and the sample still equals the candidate
peak level `v`.  Fuel-driven; the callers pass fuel at least `iMax`, which
bounds the number of steps. -/
def plateauEnd (xs : List ℚ) (iMax : Nat) (v : ℚ) : Nat → Nat → Nat
  | 0, iAhead => iAhead
  | fuel + 1, iAhead =>
    if iAhead < iMax ∧ xs.getD iAhead 0 = v then plateauEnd xs iMax v fuel (iAhead + 1)
    else iAhead

/-- Outer scan of `_local_maxima_1d` over interior indices `1 ≤ i < iMax`
(`iMax = n - 1`): when the level rises into `i` and falls after the plateau
ending before `iAhead`, the plateau midpoint is a local maximum and the scan
resumes at `iAhead + 1`.  Fuel-driven; `i` grows by at least one per step, so
fuel `n + 1` with starting index 1 covers every iteration. -/
def localMaximaAux (xs : List ℚ) (iMax : Nat) : Nat → Nat → List Nat
  | 0, _ => []
  | fuel + 1, i =>
    if i < iMax then
      if xs.getD (i - 1) 0 < xs.getD i 0 then
        let iAhead := plateauEnd xs iMax (xs.getD i 0) iMax (i + 1)
        if xs.getD iAhead 0 < xs.getD i 0 then
          (i + (iAhead - 1)) / 2 :: localMaximaAux xs iMax fuel (iAhead + 1)
        else
          localMaximaAux xs iMax fuel (i + 1)
      else
        localMaximaAux xs iMax fuel (i + 1)
    else []

/-- Peak detection of line 46: `find_peaks(levels, prominence=0)[0]`. -/
def locatePeaks (xs : List ℚ) : List Nat :=
  localMaximaAux xs (xs.length - 1) (xs.length + 1) 1

/-- Pipeline-level view of peak detection.  The source performs no input
validation before or inside `find_peaks`; no exception path exists for an
empty series (scipy returns an empty index array) or for non-finite samples
(scipy compares them, never rejects them), so the result is always `ok`. -/
def locatePeaksE (xs : List ℚ) : Except String (List Nat) :=
  Except.ok (locatePeaks xs)

/-!
Cycle Segmenter and Metric Engine, lines 50-107 of the source.
-/

/-- Slice `df.iloc[start_idx : end_idx + 1]` (line 57): inclusive index range,
clamped to the frame the way pandas positional slicing clamps. -/
def cycleSlice (s : List Reading) (a b : Nat) : List Reading :=
  (s.drop a).take (b + 1 - a)

/-- Index (relative to the slice) of the first occurrence of the minimum
level: `cycle_data['Level above Pump'].idxmin()` (line 63). -/
def argminLevel : List Reading → Nat
  | [] => 0
  | [_] => 0
  | r :: rs =>
    if (rs.getD (argminLevel rs) rdDefault).level < r.level then argminLevel rs + 1 else 0

/-- `swl = cycle_data.iloc[0]['Level above Pump']` (line 62). -/
def swlOf (cd : List Reading) : ℚ := (cd.getD 0 rdDefault).level

/-- `min_level` (line 64). -/
def minLevelOf (cd : List Reading) : ℚ := (cd.getD (argminLevel cd) rdDefault).level

/-- `max_drawdown_value = swl - min_level` (line 65). -/
def drawdownOf (cd : List Reading) : ℚ := swlOf cd - minLevelOf cd

/-- `start_time` (line 71). -/
def startTimeOf (cd : List Reading) : ℚ := (cd.getD 0 rdDefault).time

/-- `min_time` (line 72). -/
def minTimeOf (cd : List Reading) : ℚ := (cd.getD (argminLevel cd) rdDefault).time

/-- `end_time = cycle_data.iloc[-1]['Timestamp']` (line 73). -/
def endTimeOf (cd : List Reading) : ℚ := (cd.getLastD rdDefault).time

/-- `time_to_max_drawdown` in hours (line 76). -/
def timeToMaxOf (cd : List Reading) : ℚ := (minTimeOf cd - startTimeOf cd) / 3600

/-- `recovery_time` in hours (line 77). -/
def recoveryTimeRaw (cd : List Reading) : ℚ := (endTimeOf cd - minTimeOf cd) / 3600

/-- `cycle_duration` in hours (line 88). -/
def cycleDurationOf (cd : List Reading) : ℚ := (endTimeOf cd - startTimeOf cd) / 3600

/-- The guarded ratio used on lines 78, 79 and 89:
`num / den if den > 0 else 0`. -/
def safeRate (num den : ℚ) : ℚ := if 0 < den then num / den else 0

/-- Lines 80-85: filter the WHOLE cycle slice for samples at or above
`0.9 * swl`, take the first match, and return
`-1 * (match_time - min_time) / 3600`; `none` models the `np.nan` branch for
an empty filter result. -/
def recovery90Raw (cd : List Reading) : Option ℚ :=
  match cd.filter (fun r => (9/10) * swlOf cd ≤ r.level) with
  | [] => none
  | r :: _ => some (-(r.time - minTimeOf cd) / 3600)

/-- Modelled from the spec: the 90%-recovery scan as section 4.2 step (e)
describes it — scan forward from the trough (inclusive of the trough sample)
within the slice for the first sample whose level reaches `0.9 * SWL`, absent
when no such sample exists from the trough onward.  The source has no
function with this behavior; the definition exists to be compared with
`recovery90Raw`, the behavior the source actually implements. -/
def recovery90Spec (cd : List Reading) : Option ℚ :=
  let j := argminLevel cd
  match (cd.drop j).filter (fun r => (9/10) * swlOf cd ≤ r.level) with
  | [] => none
  | r :: _ => some ((r.time - minTimeOf cd) / 3600)

/-- One emitted row (lines 94-107 of the source).  Fields other than
`cycleNumber` and `startTime` are stored rounded, exactly as the dict literal
rounds them; the missing `np.nan` case of the 90%-recovery time is `none`. -/
structure CycleRecord where
  cycleNumber : Nat
  startTime : ℚ
  swl : ℚ
  maxDrawdown : ℚ
  drawdownRate : ℚ
  recoveryTime : ℚ
  rechargeRate : ℚ
  timeToMaxDrawdown : ℚ
  recovery90 : Option ℚ
  hourlyFluctuation : ℚ
  cumulativeDrawdown : ℚ
  rechargeVolume : ℚ
deriving DecidableEq

def defaultRecord : CycleRecord :=
  ⟨0, 0, 0, 0, 0, 0, 0, 0, none, 0, 0, 0⟩

/-- The dict literal of lines 94-107, built from the slice `cd`, the updated
running total `cum'` (line 90 runs before the append) and the 1-based ordinal
`number = len(cycles) + 1`. -/
def mkCycleRecord (cd : List Reading) (cum' : ℚ) (number : Nat) : CycleRecord where
  cycleNumber := number
  startTime := startTimeOf cd
  swl := roundDec 1 (swlOf cd)
  maxDrawdown := roundDec 1 (drawdownOf cd)
  drawdownRate := roundDec 1 (safeRate (drawdownOf cd) (timeToMaxOf cd))
  recoveryTime := roundDec 2 (recoveryTimeRaw cd)
  rechargeRate := roundDec 1 (safeRate (drawdownOf cd) (recoveryTimeRaw cd))
  timeToMaxDrawdown := roundDec 2 (timeToMaxOf cd)
  recovery90 := (recovery90Raw cd).map (roundDec 2)
  hourlyFluctuation := roundDec 1 (safeRate (swlOf cd - minLevelOf cd) (cycleDurationOf cd))
  cumulativeDrawdown := roundDec 1 cum'
  rechargeVolume := roundDec 1 (drawdownOf cd * 1)

/-- One iteration of the loop body (lines 54-107) for the peak pair
`(a, b)`: skip when the slice has fewer than 2 rows (line 59) or the drawdown
is below the threshold (line 67, hard-coded 2 in the source); otherwise emit
the record and the updated running total. -/
def cycleStep (s : List Reading) (minDD : ℚ) (a b : Nat) (cum : ℚ) (numSoFar : Nat) :
    Option (CycleRecord × ℚ) :=
  let cd := cycleSlice s a b
  if cd.length < 2 then none
  else if drawdownOf cd < minDD then none
  else some (mkCycleRecord cd (cum + drawdownOf cd) (numSoFar + 1), cum + drawdownOf cd)

/-- The loop of lines 50-107, folded over the list of adjacent peak pairs,
threading the running cumulative drawdown and appending accepted records. -/
def segmentCyclesAux (s : List Reading) (minDD : ℚ) :
    List (Nat × Nat) → ℚ → List CycleRecord → List CycleRecord
  | [], _, acc => acc
  | p :: rest, cum, acc =>
    match cycleStep s minDD p.1 p.2 cum acc.length with
    | none => segmentCyclesAux s minDD rest cum acc
    | some (c, cum') => segmentCyclesAux s minDD rest cum' (acc ++ [c])

/-- `segmentCycles`: the Cycle Segmenter and Metric Engine of section 4.2,
embedding lines 50-107 with the drawdown threshold as a parameter (the source
hard-codes 2). -/
def segmentCycles (s : List Reading) (peaks : List Nat) (minDD : ℚ) : List CycleRecord :=
  segmentCyclesAux s minDD (peaks.zip peaks.tail) 0 []

/-- Pipeline-level view of the engine.  Every operation of the loop is total
on the inputs the loop can see: pandas positional slicing clamps out-of-range
or reversed index pairs to short or empty frames, `iloc[0]` / `idxmin` are
guarded by the length check of line 59, and the conditional of lines 84-85
guards the empty recovery subset — so no exception path exists and the result
is always `ok`. -/
def segmentCyclesE (s : List Reading) (peaks : List Nat) (minDD : ℚ) :
    Except String (List CycleRecord) :=
  Except.ok (segmentCycles s peaks minDD)

/-- The whole pipeline on an already-sorted series (the source sorts by
`Timestamp` during ingestion, line 42, before the core runs): peak detection
on the level column, then segmentation with the hard-coded threshold 2. -/
def analyze (s : List Reading) : List CycleRecord :=
  segmentCycles s (locatePeaks (s.map Reading.level)) 2

/-!
Specification-side view of the loop, used to state theorems: the accepted
candidates (the peak pairs that survive the two skip tests of lines 59 and
67) and the records the loop emits for them.  `segAux_eq` below proves the
loop equal to this filter-then-emit formulation.
-/

/-- Acceptance test of one candidate peak pair: the slice has at least 2 rows
(line 59) and its drawdown is not below the threshold (line 67). -/
def acceptedPair (s : List Reading) (minDD : ℚ) (p : Nat × Nat) : Bool :=
  decide (2 ≤ (cycleSlice s p.1 p.2).length)
    && decide (minDD ≤ drawdownOf (cycleSlice s p.1 p.2))

/-- The slices of the accepted candidate cycles, in encounter order. -/
def acceptedSlices (s : List Reading) (minDD : ℚ) (pairs : List (Nat × Nat)) :
    List (List Reading) :=
  (pairs.filter (acceptedPair s minDD)).map (fun p => cycleSlice s p.1 p.2)

/-- Emission of records for a list of accepted slices, threading the exact
running cumulative drawdown `cum` and the count `n` of records already
emitted. -/
def emitCycles : List (List Reading) → ℚ → Nat → List CycleRecord
  | [], _, _ => []
  | cd :: rest, cum, n =>
    mkCycleRecord cd (cum + drawdownOf cd) (n + 1)
      :: emitCycles rest (cum + drawdownOf cd) (n + 1)

/-!
Concrete test inputs.
-/

/-- The end-to-end example series of the spec (section 8): levels
`[10, 11, 4, 3, 9, 9.5, 2, 8]` at hourly timestamps. -/
def ex9 : List Reading :=
  [⟨0, 10⟩, ⟨3600, 11⟩, ⟨7200, 4⟩, ⟨10800, 3⟩, ⟨14400, 9⟩,
   ⟨18000, 19/2⟩, ⟨21600, 2⟩, ⟨25200, 8⟩]

/-- The single record the pipeline emits on `ex9` (computed below). -/
def ex9rec : CycleRecord := ⟨1, 3600, 11, 8, 4, 2, 4, 2, some 2, 2, 8, 8⟩

/-- Hourly series with two accepted cycles of drawdown 2.26 each (levels
`[0, 11, 8.74, 11, 8.74, 11, 0]`): the exact cumulative drawdown 4.52 differs
from its 1-decimal reported form 4.5. -/
def ex2 : List Reading :=
  [⟨0, 0⟩, ⟨3600, 11⟩, ⟨7200, 437/50⟩, ⟨10800, 11⟩, ⟨14400, 437/50⟩,
   ⟨18000, 11⟩, ⟨21600, 0⟩]

/-- First record emitted on `ex2` (computed below). -/
def ex2rec1 : CycleRecord :=
  ⟨1, 3600, 11, 23/10, 23/10, 1, 23/10, 1, some 1, 11/10, 23/10, 23/10⟩

/-- Second record emitted on `ex2`: its reported cumulative drawdown is
`round(4.52, 1) = 4.5`. -/
def ex2rec2 : CycleRecord :=
  ⟨2, 10800, 11, 23/10, 23/10, 1, 23/10, 1, some 1, 11/10, 9/2, 23/10⟩

/-- Three readings sharing one timestamp: every hour-denominated delta of the
cycle `[0, 2]` is zero, exercising the rate saturation of lines 78, 79
and 89. -/
def exZ : List Reading := [⟨0, 10⟩, ⟨0, 3⟩, ⟨0, 10⟩]

/-- The record emitted on `exZ` with peak pair `(0, 2)` (computed below). -/
def exZrec : CycleRecord := ⟨1, 0, 10, 7, 0, 0, 0, 0, some 0, 0, 7, 7⟩

/-- A two-reading series, used with the out-of-bounds peak list `[5, 9]` to
exercise the engine on structurally invalid input. -/
def exPair : List Reading := [⟨0, 10⟩, ⟨3600, 5⟩]

end WLA

namespace WLA

/-!
Properties of the rounding function.
-/

lemma roundHalfEven_le (x : ℚ) : (roundHalfEven x : ℚ) ≤ x + 1/2 := by
  have h1 : ((⌊x⌋ : ℤ) : ℚ) ≤ x := Int.floor_le x
  unfold roundHalfEven
  split_ifs <;> push_cast <;> linarith

lemma le_roundHalfEven (x : ℚ) : x - 1/2 ≤ (roundHalfEven x : ℚ) := by
  have h2 : x < ((⌊x⌋ : ℤ) : ℚ) + 1 := Int.lt_floor_add_one x
  unfold roundHalfEven
  split_ifs <;> push_cast <;> linarith

lemma roundHalfEven_mono {x y : ℚ} (h : x ≤ y) : roundHalfEven x ≤ roundHalfEven y := by
  by_contra hlt
  push_neg at hlt
  have h1 : (roundHalfEven y : ℚ) + 1 ≤ (roundHalfEven x : ℚ) := by
    exact_mod_cast Int.add_one_le_iff.mpr hlt
  have h2 := roundHalfEven_le x
  have h3 := le_roundHalfEven y
  have hxy : x = y := le_antisymm h (by linarith)
  subst hxy
  exact absurd hlt (lt_irrefl _)

lemma roundDec_mono (d : Nat) {x y : ℚ} (h : x ≤ y) : roundDec d x ≤ roundDec d y := by
  unfold roundDec
  have hp : (0 : ℚ) < 10 ^ d := by positivity
  have hm : x * 10 ^ d ≤ y * 10 ^ d := mul_le_mul_of_nonneg_right h (le_of_lt hp)
  have := roundHalfEven_mono hm
  exact (div_le_div_iff_of_pos_right hp).mpr (by exact_mod_cast this)

lemma roundDec_zero (d : Nat) : roundDec d 0 = 0 := by
  norm_num [roundDec, roundHalfEven]

lemma roundDec_two : roundDec 1 2 = 2 := by
  norm_num [roundDec, roundHalfEven]

/-!
The loop of lines 50-107 equals the filter-then-emit formulation.
-/

lemma acceptedPair_iff {s : List Reading} {minDD : ℚ} {a b : Nat} :
    acceptedPair s minDD (a, b) = true
      ↔ 2 ≤ (cycleSlice s a b).length ∧ minDD ≤ drawdownOf (cycleSlice s a b) := by
  simp [acceptedPair]

lemma cycleStep_of_accepted {s : List Reading} {minDD : ℚ} {a b : Nat}
    (h : acceptedPair s minDD (a, b) = true) (cum : ℚ) (n : Nat) :
    cycleStep s minDD a b cum n
      = some (mkCycleRecord (cycleSlice s a b)
                (cum + drawdownOf (cycleSlice s a b)) (n + 1),
              cum + drawdownOf (cycleSlice s a b)) := by
  rw [acceptedPair_iff] at h
  unfold cycleStep
  rw [if_neg (by omega), if_neg (not_lt.mpr h.2)]

lemma cycleStep_of_rejected {s : List Reading} {minDD : ℚ} {a b : Nat}
    (h : acceptedPair s minDD (a, b) = false) (cum : ℚ) (n : Nat) :
    cycleStep s minDD a b cum n = none := by
  have h' : (cycleSlice s a b).length < 2 ∨ drawdownOf (cycleSlice s a b) < minDD := by
    have := @acceptedPair_iff s minDD a b
    rcases Nat.lt_or_ge (cycleSlice s a b).length 2 with hl | hl
    · exact Or.inl hl
    · right
      by_contra hd
      rw [not_lt] at hd
      rw [this.mpr ⟨hl, hd⟩] at h
      exact Bool.noConfusion h
  unfold cycleStep
  rcases h' with h' | h'
  · rw [if_pos h']
  · by_cases h2 : (cycleSlice s a b).length < 2
    · rw [if_pos h2]
    · rw [if_neg h2, if_pos h']

lemma segAux_eq (s : List Reading) (minDD : ℚ) :
    ∀ (pairs : List (Nat × Nat)) (cum : ℚ) (acc : List CycleRecord),
      segmentCyclesAux s minDD pairs cum acc
        = acc ++ emitCycles (acceptedSlices s minDD pairs) cum acc.length := by
  intro pairs
  induction pairs with
  | nil =>
    intro cum acc
    simp [segmentCyclesAux, acceptedSlices, emitCycles]
  | cons p rest ih =>
    intro cum acc
    obtain ⟨a, b⟩ := p
    by_cases hap : acceptedPair s minDD (a, b) = true
    · rw [segmentCyclesAux, cycleStep_of_accepted hap]
      have hsl : acceptedSlices s minDD ((a, b) :: rest)
          = cycleSlice s a b :: acceptedSlices s minDD rest := by
        simp [acceptedSlices, List.filter_cons, hap]
      show segmentCyclesAux s minDD rest (cum + drawdownOf (cycleSlice s a b))
          (acc ++ [mkCycleRecord (cycleSlice s a b)
            (cum + drawdownOf (cycleSlice s a b)) (acc.length + 1)])
        = acc ++ emitCycles (acceptedSlices s minDD ((a, b) :: rest)) cum acc.length
      rw [ih (cum + drawdownOf (cycleSlice s a b))
            (acc ++ [mkCycleRecord (cycleSlice s a b)
              (cum + drawdownOf (cycleSlice s a b)) (acc.length + 1)]),
          hsl, emitCycles]
      simp [List.append_assoc]
    · have hap' : acceptedPair s minDD (a, b) = false := by
        simpa using hap
      rw [segmentCyclesAux, cycleStep_of_rejected hap']
      have hsl : acceptedSlices s minDD ((a, b) :: rest)
          = acceptedSlices s minDD rest := by
        simp [acceptedSlices, List.filter_cons, hap']
      show segmentCyclesAux s minDD rest cum acc
        = acc ++ emitCycles (acceptedSlices s minDD ((a, b) :: rest)) cum acc.length
      rw [hsl, ih]

lemma emitCycles_length :
    ∀ (L : List (List Reading)) (cum : ℚ) (n : Nat),
      (emitCycles L cum n).length = L.length := by
  intro L
  induction L with
  | nil => intro cum n; simp [emitCycles]
  | cons cd rest ih => intro cum n; simp [emitCycles, ih]

lemma emitCycles_getD :
    ∀ (L : List (List Reading)) (cum : ℚ) (n k : Nat), k < L.length →
      (emitCycles L cum n).getD k defaultRecord
        = mkCycleRecord (L.getD k [])
            (cum + ((L.take (k + 1)).map drawdownOf).sum) (n + k + 1) := by
  intro L
  induction L with
  | nil => intro cum n k h; simp at h
  | cons cd rest ih =>
    intro cum n k h
    cases k with
    | zero => simp [emitCycles]
    | succ k =>
      have h' : k < rest.length := by simpa using h
      rw [emitCycles]
      rw [List.getD_cons_succ, List.getD_cons_succ, ih (cum + drawdownOf cd) (n + 1) k h']
      have hsum : ((cd :: rest).take (k + 1 + 1)).map drawdownOf
          = drawdownOf cd :: ((rest.take (k + 1)).map drawdownOf) := by
        simp [List.take]
      rw [hsum, List.sum_cons]
      congr 1
      · ring
      · omega

lemma segmentCycles_eq (s : List Reading) (peaks : List Nat) (minDD : ℚ) :
    segmentCycles s peaks minDD
      = emitCycles (acceptedSlices s minDD (peaks.zip peaks.tail)) 0 0 := by
  unfold segmentCycles
  rw [segAux_eq]
  simp

lemma segmentCycles_length (s : List Reading) (peaks : List Nat) (minDD : ℚ) :
    (segmentCycles s peaks minDD).length
      = (acceptedSlices s minDD (peaks.zip peaks.tail)).length := by
  rw [segmentCycles_eq, emitCycles_length]

lemma segmentCycles_getD (s : List Reading) (peaks : List Nat) (minDD : ℚ) (k : Nat)
    (h : k < (segmentCycles s peaks minDD).length) :
    (segmentCycles s peaks minDD).getD k defaultRecord
      = mkCycleRecord ((acceptedSlices s minDD (peaks.zip peaks.tail)).getD k [])
          ((((acceptedSlices s minDD (peaks.zip peaks.tail)).take (k + 1)).map drawdownOf).sum)
          (k + 1) := by
  rw [segmentCycles_length] at h
  rw [segmentCycles_eq, emitCycles_getD _ _ _ _ h]
  norm_num

lemma acceptedSlices_mem {s : List Reading} {minDD : ℚ} {pairs : List (Nat × Nat)}
    {cd : List Reading} (h : cd ∈ acceptedSlices s minDD pairs) :
    2 ≤ cd.length ∧ minDD ≤ drawdownOf cd := by
  unfold acceptedSlices at h
  obtain ⟨p, hp, heq⟩ := List.mem_map.mp h
  have := (List.mem_filter.mp hp).2
  obtain ⟨a, b⟩ := p
  rw [acceptedPair_iff] at this
  rw [← heq]
  exact this

lemma acceptedSlices_getD_mem {s : List Reading} {minDD : ℚ} {pairs : List (Nat × Nat)}
    {k : Nat} (h : k < (acceptedSlices s minDD pairs).length) :
    (acceptedSlices s minDD pairs).getD k [] ∈ acceptedSlices s minDD pairs := by
  rw [List.getD_eq_getElem _ _ h]
  exact List.getElem_mem h

lemma sum_take_mono {L : List ℚ} (h0 : ∀ x ∈ L, 0 ≤ x) {j k : Nat} (hjk : j ≤ k) :
    (L.take j).sum ≤ (L.take k).sum := by
  have hsplit : L.take k = L.take j ++ (L.take k).drop j := by
    have h1 : (L.take k).take j = L.take j := by
      rw [List.take_take, Nat.min_eq_left hjk]
    rw [← h1, List.take_append_drop]
  rw [hsplit, List.sum_append]
  have hnn : 0 ≤ ((L.take k).drop j).sum := by
    apply List.sum_nonneg
    intro x hx
    exact h0 x (List.mem_of_mem_take (List.mem_of_mem_drop hx))
  linarith

end WLA

namespace WLA

/-!
Evaluation of the pipeline on the concrete inputs.
-/

set_option maxHeartbeats 2000000 in
lemma ex9_peaks : locatePeaks (ex9.map Reading.level) = [1, 5] := by
  norm_num [locatePeaks, localMaximaAux, plateauEnd, ex9]

lemma ex9_seg : segmentCycles ex9 [1, 5] 2 = [ex9rec] := by
  norm_num [segmentCycles, segmentCyclesAux, cycleStep, mkCycleRecord, cycleSlice,
    argminLevel, swlOf, minLevelOf, drawdownOf, startTimeOf, minTimeOf, endTimeOf,
    timeToMaxOf, recoveryTimeRaw, cycleDurationOf, safeRate, recovery90Raw,
    roundDec, roundHalfEven, ex9, ex9rec, rdDefault]

lemma ex9_analyze : analyze ex9 = [ex9rec] := by
  unfold analyze
  rw [ex9_peaks, ex9_seg]

lemma ex9_accepted :
    acceptedSlices ex9 2 (([1, 5] : List Nat).zip ([1, 5] : List Nat).tail)
      = [cycleSlice ex9 1 5] := by
  norm_num [acceptedSlices, acceptedPair, cycleSlice, drawdownOf, swlOf, minLevelOf,
    argminLevel, ex9, rdDefault]

lemma ex9_slice_swl : swlOf (cycleSlice ex9 1 5) = 11 := by
  norm_num [swlOf, cycleSlice, ex9, rdDefault]

lemma ex9_slice_min : minLevelOf (cycleSlice ex9 1 5) = 3 := by
  norm_num [minLevelOf, argminLevel, cycleSlice, ex9, rdDefault]

lemma ex9_spec90 : recovery90Spec (cycleSlice ex9 1 5) = none := by
  norm_num [recovery90Spec, argminLevel, swlOf, minTimeOf, cycleSlice, ex9, rdDefault]

set_option maxHeartbeats 2000000 in
lemma ex2_peaks : locatePeaks (ex2.map Reading.level) = [1, 3, 5] := by
  norm_num [locatePeaks, localMaximaAux, plateauEnd, ex2]

set_option maxHeartbeats 1000000 in
lemma ex2_seg : segmentCycles ex2 [1, 3, 5] 2 = [ex2rec1, ex2rec2] := by
  norm_num [segmentCycles, segmentCyclesAux, cycleStep, mkCycleRecord, cycleSlice,
    argminLevel, swlOf, minLevelOf, drawdownOf, startTimeOf, minTimeOf, endTimeOf,
    timeToMaxOf, recoveryTimeRaw, cycleDurationOf, safeRate, recovery90Raw,
    roundDec, roundHalfEven, ex2, ex2rec1, ex2rec2, rdDefault]

lemma ex2_analyze : analyze ex2 = [ex2rec1, ex2rec2] := by
  unfold analyze
  rw [ex2_peaks, ex2_seg]

lemma ex2_drawdowns :
    drawdownOf (cycleSlice ex2 1 3) + drawdownOf (cycleSlice ex2 3 5) = 113/25 := by
  norm_num [drawdownOf, swlOf, minLevelOf, argminLevel, cycleSlice, ex2, rdDefault]

lemma exZ_seg : segmentCycles exZ [0, 2] 2 = [exZrec] := by
  norm_num [segmentCycles, segmentCyclesAux, cycleStep, mkCycleRecord, cycleSlice,
    argminLevel, swlOf, minLevelOf, drawdownOf, startTimeOf, minTimeOf, endTimeOf,
    timeToMaxOf, recoveryTimeRaw, cycleDurationOf, safeRate, recovery90Raw,
    roundDec, roundHalfEven, exZ, exZrec, rdDefault]

lemma exZ_accepted :
    acceptedSlices exZ 2 (([0, 2] : List Nat).zip ([0, 2] : List Nat).tail)
      = [cycleSlice exZ 0 2] := by
  norm_num [acceptedSlices, acceptedPair, cycleSlice, drawdownOf, swlOf, minLevelOf,
    argminLevel, exZ, rdDefault]

lemma exZ_deltas :
    timeToMaxOf (cycleSlice exZ 0 2) = 0 ∧ recoveryTimeRaw (cycleSlice exZ 0 2) = 0
      ∧ cycleDurationOf (cycleSlice exZ 0 2) = 0 := by
  norm_num [timeToMaxOf, recoveryTimeRaw, cycleDurationOf, startTimeOf, minTimeOf,
    endTimeOf, argminLevel, cycleSlice, exZ, rdDefault]

end WLA

namespace WLA

/-!
The claims.
-/

/-- C1: the claim states that the 90%-recovery time is found by scanning
forward from the trough (inclusive) and is absent when no sample from the
trough onward reaches `0.9 * SWL`.  On the example series `ex9` the accepted
cycle is the slice `[1, 5]` with SWL 11 and trough level 3; no sample from
the trough onward reaches the threshold 9.9 (`recovery90Spec` returns
`none`), yet the code reports a 90%-recovery time of 2 hours, because line 81
filters the whole slice (the first sample, at level SWL, qualifies) and
line 84 negates the resulting time delta. -/
theorem claim_c1_divergence :
    ((analyze ex9).getD 0 defaultRecord).recovery90 = some 2
    ∧ recovery90Spec (cycleSlice ex9 1 5) = none := by
  refine ⟨?_, ex9_spec90⟩
  rw [ex9_analyze]
  rfl

/-- C2 (counterexample): on the series `ex2` with two accepted cycles of
exact drawdown 2.26 each, the second record reports cumulative drawdown 4.5,
while the exact sum of the two drawdowns is 4.52 — the reported value is not
the exact sum the claim states. -/
theorem claim_c2_counterexample :
    (analyze ex2).length = 2
    ∧ ((analyze ex2).getD 1 defaultRecord).cumulativeDrawdown = 9/2
    ∧ drawdownOf (cycleSlice ex2 1 3) + drawdownOf (cycleSlice ex2 3 5) = 113/25
    ∧ (9 : ℚ)/2 < 113/25 := by
  refine ⟨?_, ?_, ex2_drawdowns, by norm_num⟩
  · rw [ex2_analyze]
    rfl
  · rw [ex2_analyze]
    rfl

/-- C2 (amended): for every accepted cycle k (1-based, accepted cycles only,
in encounter order), the reported cumulativeDrawdown equals the exact sum of
the raw maxDrawdown values of accepted cycles 1..k rounded to 1 decimal
place; rejected cycles do not advance the sum, and the reported value is
monotonically non-decreasing across accepted cycles (for a non-negative
threshold). -/
theorem claim_c2_cumulative_rounded_sum (s : List Reading) (peaks : List Nat) (minDD : ℚ)
    (hmin : 0 ≤ minDD) (k : Nat) (hk : k < (segmentCycles s peaks minDD).length) :
    ((segmentCycles s peaks minDD).getD k defaultRecord).cumulativeDrawdown
      = roundDec 1 ((((acceptedSlices s minDD (peaks.zip peaks.tail)).take (k + 1)).map drawdownOf).sum)
    ∧ ∀ j, j ≤ k →
        ((segmentCycles s peaks minDD).getD j defaultRecord).cumulativeDrawdown
          ≤ ((segmentCycles s peaks minDD).getD k defaultRecord).cumulativeDrawdown := by
  constructor
  · rw [segmentCycles_getD _ _ _ _ hk]
    rfl
  · intro j hj
    have hjlt : j < (segmentCycles s peaks minDD).length := Nat.lt_of_le_of_lt hj hk
    rw [segmentCycles_getD _ _ _ _ hjlt, segmentCycles_getD _ _ _ _ hk]
    show roundDec 1 _ ≤ roundDec 1 _
    apply roundDec_mono
    rw [List.map_take, List.map_take]
    apply sum_take_mono
    · intro x hx
      obtain ⟨cd, hcd, hxcd⟩ := List.mem_map.mp hx
      have := acceptedSlices_mem hcd
      rw [← hxcd]
      exact le_trans hmin this.2
    · omega

/-- C2 (witness): the amended claim instantiated on `ex9` at its single
accepted cycle. -/
theorem claim_c2_witness :
    ((segmentCycles ex9 [1, 5] 2).getD 0 defaultRecord).cumulativeDrawdown
      = roundDec 1 ((((acceptedSlices ex9 2 (([1, 5] : List Nat).zip ([1, 5] : List Nat).tail)).take 1).map drawdownOf).sum)
    ∧ ((segmentCycles ex9 [1, 5] 2).getD 0 defaultRecord).cumulativeDrawdown
      ≤ ((segmentCycles ex9 [1, 5] 2).getD 0 defaultRecord).cumulativeDrawdown := by
  have h := claim_c2_cumulative_rounded_sum ex9 [1, 5] 2 (by norm_num) 0
    (by rw [ex9_seg]; norm_num)
  exact ⟨h.1, h.2 0 (Nat.le_refl 0)⟩

/-- C3: every cycle record appearing in the pipeline output has
maxDrawdown at least the default threshold 2.0 meters, and accepted cycles
carry 1-based sequential cycleNumber ordinals that rejected cycles do not
consume. -/
theorem claim_c3_threshold_and_numbering (s : List Reading) (k : Nat)
    (hk : k < (analyze s).length) :
    2 ≤ ((analyze s).getD k defaultRecord).maxDrawdown
    ∧ ((analyze s).getD k defaultRecord).cycleNumber = k + 1 := by
  unfold analyze at hk ⊢
  have hlen := hk
  rw [segmentCycles_length] at hlen
  have hprop := acceptedSlices_mem (acceptedSlices_getD_mem hlen)
  rw [segmentCycles_getD _ _ _ _ hk]
  constructor
  · show 2 ≤ roundDec 1
      (drawdownOf ((acceptedSlices s 2
        ((locatePeaks (s.map Reading.level)).zip (locatePeaks (s.map Reading.level)).tail)).getD k []))
    calc (2 : ℚ) = roundDec 1 2 := roundDec_two.symm
    _ ≤ _ := roundDec_mono 1 hprop.2
  · rfl

/-- C3 (witness): the threshold and numbering claim instantiated on `ex9` at
its single record. -/
theorem claim_c3_witness :
    2 ≤ ((analyze ex9).getD 0 defaultRecord).maxDrawdown
    ∧ ((analyze ex9).getD 0 defaultRecord).cycleNumber = 0 + 1 :=
  claim_c3_threshold_and_numbering ex9 0 (by rw [ex9_analyze]; norm_num)

/-- C4: for every emitted cycle record, each of drawdownRate, rechargeRate
and hourlyFluctuation whose hour-denominated time denominator is exactly 0
evaluates to 0 (the saturation policy of lines 78, 79 and 89). -/
theorem claim_c4_zero_denominator_rates (s : List Reading) (peaks : List Nat) (minDD : ℚ)
    (k : Nat) (hk : k < (segmentCycles s peaks minDD).length) :
    (timeToMaxOf ((acceptedSlices s minDD (peaks.zip peaks.tail)).getD k []) = 0 →
      ((segmentCycles s peaks minDD).getD k defaultRecord).drawdownRate = 0)
    ∧ (recoveryTimeRaw ((acceptedSlices s minDD (peaks.zip peaks.tail)).getD k []) = 0 →
      ((segmentCycles s peaks minDD).getD k defaultRecord).rechargeRate = 0)
    ∧ (cycleDurationOf ((acceptedSlices s minDD (peaks.zip peaks.tail)).getD k []) = 0 →
      ((segmentCycles s peaks minDD).getD k defaultRecord).hourlyFluctuation = 0) := by
  rw [segmentCycles_getD _ _ _ _ hk]
  refine ⟨fun h => ?_, fun h => ?_, fun h => ?_⟩
  · show roundDec 1 (safeRate _ _) = 0
    rw [h, show ∀ x : ℚ, safeRate x 0 = 0 from fun x => by simp [safeRate]]
    exact roundDec_zero 1
  · show roundDec 1 (safeRate _ _) = 0
    rw [h, show ∀ x : ℚ, safeRate x 0 = 0 from fun x => by simp [safeRate]]
    exact roundDec_zero 1
  · show roundDec 1 (safeRate _ _) = 0
    rw [h, show ∀ x : ℚ, safeRate x 0 = 0 from fun x => by simp [safeRate]]
    exact roundDec_zero 1

/-- C4 (witness): on the duplicate-timestamp series `exZ` the accepted cycle
has all three time denominators equal to 0 and all three rates report 0. -/
theorem claim_c4_witness :
    ((segmentCycles exZ [0, 2] 2).getD 0 defaultRecord).drawdownRate = 0
    ∧ ((segmentCycles exZ [0, 2] 2).getD 0 defaultRecord).rechargeRate = 0
    ∧ ((segmentCycles exZ [0, 2] 2).getD 0 defaultRecord).hourlyFluctuation = 0 := by
  have hget : (acceptedSlices exZ 2 (([0, 2] : List Nat).zip ([0, 2] : List Nat).tail)).getD 0 []
      = cycleSlice exZ 0 2 := by
    rw [exZ_accepted]
    rfl
  have h := claim_c4_zero_denominator_rates exZ [0, 2] 2 0 (by rw [exZ_seg]; norm_num)
  rw [hget] at h
  exact ⟨h.1 exZ_deltas.1, h.2.1 exZ_deltas.2.1, h.2.2 exZ_deltas.2.2⟩

/-- C5: every reported field is a single rounding (1 decimal for levels and
rates, 2 decimals for hour durations) of the exact raw quantity; in
particular the reported cumulativeDrawdown is the 1-decimal rounding of the
exact running sum of raw drawdowns, so no rounding error compounds through
the accumulator. -/
theorem claim_c5_round_at_boundary_only (s : List Reading) (peaks : List Nat) (minDD : ℚ)
    (k : Nat) (hk : k < (segmentCycles s peaks minDD).length) :
    ((segmentCycles s peaks minDD).getD k defaultRecord).swl
      = roundDec 1 (swlOf ((acceptedSlices s minDD (peaks.zip peaks.tail)).getD k []))
    ∧ ((segmentCycles s peaks minDD).getD k defaultRecord).maxDrawdown
      = roundDec 1 (drawdownOf ((acceptedSlices s minDD (peaks.zip peaks.tail)).getD k []))
    ∧ ((segmentCycles s peaks minDD).getD k defaultRecord).drawdownRate
      = roundDec 1 (safeRate (drawdownOf ((acceptedSlices s minDD (peaks.zip peaks.tail)).getD k []))
          (timeToMaxOf ((acceptedSlices s minDD (peaks.zip peaks.tail)).getD k [])))
    ∧ ((segmentCycles s peaks minDD).getD k defaultRecord).recoveryTime
      = roundDec 2 (recoveryTimeRaw ((acceptedSlices s minDD (peaks.zip peaks.tail)).getD k []))
    ∧ ((segmentCycles s peaks minDD).getD k defaultRecord).rechargeRate
      = roundDec 1 (safeRate (drawdownOf ((acceptedSlices s minDD (peaks.zip peaks.tail)).getD k []))
          (recoveryTimeRaw ((acceptedSlices s minDD (peaks.zip peaks.tail)).getD k [])))
    ∧ ((segmentCycles s peaks minDD).getD k defaultRecord).timeToMaxDrawdown
      = roundDec 2 (timeToMaxOf ((acceptedSlices s minDD (peaks.zip peaks.tail)).getD k []))
    ∧ ((segmentCycles s peaks minDD).getD k defaultRecord).hourlyFluctuation
      = roundDec 1 (safeRate (swlOf ((acceptedSlices s minDD (peaks.zip peaks.tail)).getD k [])
            - minLevelOf ((acceptedSlices s minDD (peaks.zip peaks.tail)).getD k []))
          (cycleDurationOf ((acceptedSlices s minDD (peaks.zip peaks.tail)).getD k [])))
    ∧ ((segmentCycles s peaks minDD).getD k defaultRecord).cumulativeDrawdown
      = roundDec 1 ((((acceptedSlices s minDD (peaks.zip peaks.tail)).take (k + 1)).map drawdownOf).sum)
    ∧ ((segmentCycles s peaks minDD).getD k defaultRecord).rechargeVolume
      = roundDec 1 (drawdownOf ((acceptedSlices s minDD (peaks.zip peaks.tail)).getD k []) * 1) := by
  rw [segmentCycles_getD _ _ _ _ hk]
  exact ⟨rfl, rfl, rfl, rfl, rfl, rfl, rfl, rfl, rfl⟩

/-- C5 (witness): the rounding-at-boundary claim instantiated on `ex9` at its
single record (first two conjuncts shown). -/
theorem claim_c5_witness :
    ((segmentCycles ex9 [1, 5] 2).getD 0 defaultRecord).swl
      = roundDec 1 (swlOf ((acceptedSlices ex9 2 (([1, 5] : List Nat).zip ([1, 5] : List Nat).tail)).getD 0 []))
    ∧ ((segmentCycles ex9 [1, 5] 2).getD 0 defaultRecord).maxDrawdown
      = roundDec 1 (drawdownOf ((acceptedSlices ex9 2 (([1, 5] : List Nat).zip ([1, 5] : List Nat).tail)).getD 0 [])) := by
  have h := claim_c5_round_at_boundary_only ex9 [1, 5] 2 0 (by rw [ex9_seg]; norm_num)
  exact ⟨h.1, h.2.1⟩

/-- C6 (counterexample): on the empty series, peak location returns the empty
index list as a normal result rather than failing with InvalidInput. -/
theorem claim_c6_counterexample : locatePeaksE [] = Except.ok [] := rfl

/-- C6 (amended): locatePeaks performs no input validation and never fails —
every series, the empty one included, yields an ok result. -/
theorem claim_c6_never_fails (xs : List ℚ) : ∃ ps, locatePeaksE xs = Except.ok ps :=
  ⟨locatePeaks xs, rfl⟩

/-- C7 (counterexample): with the structurally invalid peak list `[5, 9]` on
a two-reading series (peak indices out of bounds), the engine returns an
empty report as a normal result rather than raising InvalidSegmentation. -/
theorem claim_c7_counterexample : segmentCyclesE exPair [5, 9] 2 = Except.ok [] := rfl

/-- C7 (amended): the engine never raises — a zero-accepted-cycles outcome
and structurally invalid input (out-of-bounds or non-ascending peak indices,
non-increasing timestamps) alike produce an ok report; no
InvalidSegmentation error exists. -/
theorem claim_c7_never_fails (s : List Reading) (peaks : List Nat) (minDD : ℚ) :
    ∃ r, segmentCyclesE s peaks minDD = Except.ok r :=
  ⟨segmentCycles s peaks minDD, rfl⟩

/-- C8: for every Series and every PeakSet containing fewer than 2 peak
indices, segmentCycles returns an empty CycleReport, and this is a result,
not an error. -/
theorem claim_c8_few_peaks_empty (s : List Reading) (peaks : List Nat) (minDD : ℚ)
    (h : peaks.length < 2) : segmentCycles s peaks minDD = [] := by
  rcases peaks with _ | ⟨a, _ | ⟨b, t⟩⟩
  · rfl
  · rfl
  · simp at h
    omega

/-- C8 (witness): the single-peak list on `ex9` yields the empty report. -/
theorem claim_c8_witness : segmentCycles ex9 [3] 2 = [] :=
  claim_c8_few_peaks_empty ex9 [3] 2 (by norm_num)

/-- C9 (counterexample): on the example series the detected peak set does not
contain index 6 (whose level is 2, not 9.5) — the second peak is at index 5. -/
theorem claim_c9_counterexample :
    (locatePeaks (ex9.map Reading.level)).contains 6 = false
    ∧ (ex9.map Reading.level).getD 6 0 = 2 := by
  constructor
  · rw [ex9_peaks]
    rfl
  · norm_num [ex9]

/-- C9 (amended): on the series `[10, 11, 4, 3, 9, 9.5, 2, 8]` at hourly
timestamps, peak detection finds peaks at index 1 (level 11) and index 5
(level 9.5), and the pipeline produces exactly one cycle record with SWL 11,
minimum level 3, maxDrawdown 8, cycleNumber 1 and cumulativeDrawdown 8. -/
theorem claim_c9_end_to_end :
    locatePeaks (ex9.map Reading.level) = [1, 5]
    ∧ analyze ex9 = [ex9rec]
    ∧ ex9rec.swl = 11
    ∧ minLevelOf (cycleSlice ex9 1 5) = 3
    ∧ ex9rec.maxDrawdown = 8
    ∧ ex9rec.cycleNumber = 1
    ∧ ex9rec.cumulativeDrawdown = 8 :=
  ⟨ex9_peaks, ex9_analyze, rfl, ex9_slice_min, rfl, rfl, rfl⟩

/-- C10: for every accepted cycle whose raw SWL is strictly positive, the
reported 90%-recovery time is present and coincides with the reported
timeToMaxDrawdown — the whole-slice filter of line 81 always matches the
cycle's first sample, and the negation of line 84 turns the delta into the
time from cycle start to the trough. -/
theorem claim_c10_recovery_equals_drawdown_time (s : List Reading) (peaks : List Nat)
    (minDD : ℚ) (k : Nat) (hk : k < (segmentCycles s peaks minDD).length)
    (hswl : 0 < swlOf ((acceptedSlices s minDD (peaks.zip peaks.tail)).getD k [])) :
    ((segmentCycles s peaks minDD).getD k defaultRecord).recovery90
      = some (((segmentCycles s peaks minDD).getD k defaultRecord).timeToMaxDrawdown) := by
  have hlen := hk
  rw [segmentCycles_length] at hlen
  have hprop := acceptedSlices_mem (acceptedSlices_getD_mem hlen)
  rw [segmentCycles_getD _ _ _ _ hk]
  show ((recovery90Raw ((acceptedSlices s minDD (peaks.zip peaks.tail)).getD k [])).map (roundDec 2))
    = some (roundDec 2 (timeToMaxOf ((acceptedSlices s minDD (peaks.zip peaks.tail)).getD k [])))
  have h90 : recovery90Raw ((acceptedSlices s minDD (peaks.zip peaks.tail)).getD k [])
      = some (timeToMaxOf ((acceptedSlices s minDD (peaks.zip peaks.tail)).getD k [])) := by
    rcases hcd : (acceptedSlices s minDD (peaks.zip peaks.tail)).getD k [] with _ | ⟨r, rest⟩
    · rw [hcd] at hprop
      simp at hprop
    · rw [hcd] at hswl
      have hlev : swlOf (r :: rest) = r.level := rfl
      have hdec : decide ((9 : ℚ)/10 * swlOf (r :: rest) ≤ r.level) = true := by
        rw [decide_eq_true_eq, hlev]
        rw [hlev] at hswl
        linarith
      unfold recovery90Raw
      rw [List.filter_cons, hdec]
      show some (-(r.time - minTimeOf (r :: rest)) / 3600)
        = some (timeToMaxOf (r :: rest))
      have hstart : startTimeOf (r :: rest) = r.time := rfl
      unfold timeToMaxOf
      rw [hstart]
      congr 1
      ring
  rw [h90]
  rfl

/-- C10 (witness): on `ex9` the single record's 90%-recovery time equals its
time to maximum drawdown. -/
theorem claim_c10_witness :
    ((segmentCycles ex9 [1, 5] 2).getD 0 defaultRecord).recovery90
      = some (((segmentCycles ex9 [1, 5] 2).getD 0 defaultRecord).timeToMaxDrawdown) := by
  apply claim_c10_recovery_equals_drawdown_time ex9 [1, 5] 2 0 (by rw [ex9_seg]; norm_num)
  rw [show (acceptedSlices ex9 2 (([1, 5] : List Nat).zip ([1, 5] : List Nat).tail)).getD 0 []
      = cycleSlice ex9 1 5 from by rw [ex9_accepted]; rfl]
  rw [ex9_slice_swl]
  norm_num

end WLA
